import Mathlib

/-!
Verification of the goclover/clover HTTP router against its specification.

The Go source is shallowly embedded: Go strings are Lean `String`s (with
character-level helper functions defined over `String.data`, since the
claims' inputs are ASCII), Go byte slices are `List Nat` (byte values),
`http.Header` is an association list from key to value list, and an
`http.ResponseWriter` is a state recording the headers added, the statuses
written (in order) and the body chunks written (in order).  Fallible Go
operations return an `Option String` error alongside the new writer state.

The routing core (pattern compiler, trie, matcher) and the URLFormat
middleware are not part of the inspected source slice; they are modelled
from the specification, and each such definition says so in its doc
comment.
-/

namespace Clover

/-! ## Character-level string helpers (Go `strings` operations) -/

/-- Splits a character list on a separator character; mirrors Go
`strings.Split` at the character level (ASCII inputs). -/
def splitOnChar (c : Char) : List Char → List (List Char)
  | [] => [[]]
  | x :: xs =>
    let r := splitOnChar c xs
    if x = c then [] :: r
    else
      match r with
      | [] => [[x]]
      | g :: gs => (x :: g) :: gs

/-- Joins character lists with a separator character; mirrors Go
`strings.Join` at the character level. -/
def joinWithChar (c : Char) : List (List Char) → List Char
  | [] => []
  | [g] => g
  | g :: gs => g ++ c :: joinWithChar c gs

/-- Go `strings.Split(s, sep)` for a single-character separator. -/
def goSplit (s : String) (c : Char) : List String :=
  (splitOnChar c s.data).map String.mk

/-- Go `strings.Join(parts, sep)` for a single-character separator. -/
def goJoin (parts : List String) (c : Char) : String :=
  String.mk (joinWithChar c (parts.map String.data))

/-- Go `strings.HasSuffix(s, suffix)`. -/
def goHasSuffix (s sfx : String) : Bool :=
  sfx.data.isSuffixOf s.data

/-- Go `strings.HasPrefix(s, p)`. -/
def goHasPrefixStr (s p : String) : Bool :=
  p.data.isPrefixOf s.data

/-- Go `s[:len(s)-n]`: drop the last `n` characters. -/
def goDropRight (s : String) (n : Nat) : String :=
  String.mk (s.data.take (s.data.length - n))

/-- Go `s[n:]`: drop the first `n` characters. -/
def goDropLeft (s : String) (n : Nat) : String :=
  String.mk (s.data.drop n)

/-- Go `[]byte(s)`: the UTF-8 bytes of a string, as natural numbers. -/
def strBytes (s : String) : List Nat :=
  s.toUTF8.toList.map UInt8.toNat

/-! ## HTTP header and response-writer model -/

/-- Model of Go `http.Header`: an association list from header key to the
list of values stored under that key.  Go's map iteration order is not
deterministic; the model fixes insertion order, which is sound for the
claims considered (both sides of every comparison use the same order). -/
abbrev HttpHeader := List (String × List String)

/-- Go `http.Header.Add(k, v)`: append `v` to the values stored under `k`,
creating the entry if absent. -/
def headerAdd (h : HttpHeader) (k v : String) : HttpHeader :=
  match h with
  | [] => [(k, [v])]
  | (k0, vs) :: rest =>
    if k0 = k then (k0, vs ++ [v]) :: rest else (k0, vs) :: headerAdd rest k v

/-- The list of values stored under key `k` (Go map indexing /
`http.Header.Values`: a missing key yields the empty (nil) slice). -/
def headerValues (h : HttpHeader) (k : String) : List String :=
  match h with
  | [] => []
  | (k0, vs) :: rest => if k0 = k then vs else headerValues rest k

/-- State of an `http.ResponseWriter`: headers added so far, the status
codes passed to `WriteHeader` (in order), and the body chunks passed to
`Write` (in order).  In this model `Write` itself always succeeds. -/
structure ResponseWriter where
  header : HttpHeader
  statuses : List Int
  body : List (List Nat)
  deriving DecidableEq

/-- Go `w.WriteHeader(code)`. -/
def ResponseWriter.writeHeader (w : ResponseWriter) (code : Int) : ResponseWriter :=
  { w with statuses := w.statuses ++ [code] }

/-- Go `w.Write(b)`. -/
def ResponseWriter.writeBytes (w : ResponseWriter) (b : List Nat) : ResponseWriter :=
  { w with body := w.body ++ [b] }

/-- Source `copyHeaders(dst, src)` (identical in `src/render.go` and
`src/render/render.go`): `dst.Add(k, v)` for every key and every value of
`src`, in order. -/
def copyHeaders (dst src : HttpHeader) : HttpHeader :=
  src.foldl (fun d kv => kv.2.foldl (fun d2 v => headerAdd d2 kv.1 v) d) dst

end Clover

namespace Clover.render

/-! ## The `render` package (src/render/render.go) -/

/-- Header key `Content-Type` (source constant `HeaderContentTyp`). -/
def HeaderContentTyp : String := "Content-Type"

/-- Header key `Content-Length` (source constant `HeaderContentLen`). -/
def HeaderContentLen : String := "Content-Length"

/-- Header key `Location` (source constant `HeaderLocation`). -/
def HeaderLocation : String := "Location"

/-- Source `render.NopRender`: a status and a header set. -/
structure NopRender where
  Status : Int
  Headers : HttpHeader

/-- Source `render.NopRender.WriteTo`: copy the stored headers into the
writer, then write the stored status if positive and `200` (`http.StatusOK`)
otherwise; returns a nil error. -/
def NopRender.WriteTo (n : NopRender) (w : ResponseWriter) :
    ResponseWriter × Option String :=
  let w1 : ResponseWriter := { w with header := copyHeaders w.header n.Headers }
  if n.Status > 0 then (w1.writeHeader n.Status, none)
  else (w1.writeHeader 200, none)

/-- Source `render.JSONRender`: an embedded `NopRender` plus marshaled data. -/
structure JSONRender where
  nop : NopRender
  Data : List Nat

/-- Source `render.JSONRender.WriteTo`: run the embedded `NopRender.WriteTo`
(ignoring its error), then write `Data` and return the write's error. -/
def JSONRender.WriteTo (j : JSONRender) (w : ResponseWriter) :
    ResponseWriter × Option String :=
  let w1 := (j.nop.WriteTo w).1
  (w1.writeBytes j.Data, none)

/-- Source `render.TextRender`. -/
structure TextRender where
  nop : NopRender
  Text : List Nat

/-- Source `render.TextRender.WriteTo`. -/
def TextRender.WriteTo (t : TextRender) (w : ResponseWriter) :
    ResponseWriter × Option String :=
  let w1 := (t.nop.WriteTo w).1
  (w1.writeBytes t.Text, none)

/-- Source `render.RedirectRender`. -/
structure RedirectRender where
  nop : NopRender
  Text : List Nat

/-- Source `render.RedirectRender.WriteTo`. -/
def RedirectRender.WriteTo (r : RedirectRender) (w : ResponseWriter) :
    ResponseWriter × Option String :=
  let w1 := (r.nop.WriteTo w).1
  (w1.writeBytes r.Text, none)

/-- Source `render.JSON(data)`.  `json.Marshal` is abstracted to its output
byte slice `bf`: the constructor stores status `200` (`http.StatusOK`), a
JSON content type, `Content-Length` equal to `len(bf)`, and the data. -/
def JSON (bf : List Nat) : JSONRender :=
  { nop :=
      { Status := 200
        Headers :=
          [(HeaderContentTyp, ["application/json; charset=utf-8"]),
           (HeaderContentLen, [toString bf.length])] }
    Data := bf }

/-- Source `render.Text(text)`: stores status `200`, a plain-text content
type, `Content-Length` equal to `len([]byte(text))`, and the text bytes. -/
def Text (text : String) : TextRender :=
  { nop :=
      { Status := 200
        Headers :=
          [(HeaderContentTyp, ["text/plain; charset=utf-8"]),
           (HeaderContentLen, [toString (strBytes text).length])] }
    Text := strBytes text }

/-- Body chosen by `render.Redirect`: `"redirect"` unless variadic text was
supplied, in which case the concatenation (`strings.Join(text, "")`). -/
def redirectBody (texts : List String) : List Nat :=
  if texts.length > 0 then strBytes (String.join texts) else strBytes "redirect"

/-- Source `render.Redirect(status, location, text...)`. -/
def Redirect (status : Int) (location : String) (texts : List String) :
    RedirectRender :=
  { nop :=
      { Status := status
        Headers :=
          [(HeaderContentTyp, ["text/plain; charset=utf-8"]),
           (HeaderContentLen, [toString (redirectBody texts).length]),
           (HeaderLocation, [location])] }
    Text := redirectBody texts }

end Clover.render

namespace Clover.clover

/-! ## The `clover` package render constructors (src/render.go) -/

/-- Header key `Content-Type` (source constant in `src/render.go`). -/
def HeaderContentTyp : String := "Content-Type"

/-- Header key `Content-Length` (source constant in `src/render.go`). -/
def HeaderContentLen : String := "Content-Length"

/-- Source `clover.NopRender` (src/render.go). -/
structure NopRender where
  Status : Int
  Headers : HttpHeader

/-- Source `clover.NopRender.WriteTo` (src/render.go); the code is
line-for-line the same as `render.NopRender.WriteTo`. -/
def NopRender.WriteTo (n : NopRender) (w : ResponseWriter) :
    ResponseWriter × Option String :=
  let w1 : ResponseWriter := { w with header := copyHeaders w.header n.Headers }
  if n.Status > 0 then (w1.writeHeader n.Status, none)
  else (w1.writeHeader 200, none)

/-- Source `clover.JSONRender` (src/render.go). -/
structure JSONRender where
  nop : NopRender
  Data : List Nat

/-- Source `clover.JSONRender.WriteTo` (src/render.go). -/
def JSONRender.WriteTo (j : JSONRender) (w : ResponseWriter) :
    ResponseWriter × Option String :=
  let w1 := (j.nop.WriteTo w).1
  (w1.writeBytes j.Data, none)

/-- Source `clover.TextRender` (src/render.go). -/
structure TextRender where
  nop : NopRender
  Text : List Nat

/-- Source `clover.TextRender.WriteTo` (src/render.go). -/
def TextRender.WriteTo (t : TextRender) (w : ResponseWriter) :
    ResponseWriter × Option String :=
  let w1 := (t.nop.WriteTo w).1
  (w1.writeBytes t.Text, none)

/-- Source `clover.JSON(data)` (src/render.go): as `render.JSON` but the
stored `Status` is `0`, not `200`. -/
def JSON (bf : List Nat) : JSONRender :=
  { nop :=
      { Status := 0
        Headers :=
          [(HeaderContentTyp, ["application/json; charset=utf-8"]),
           (HeaderContentLen, [toString bf.length])] }
    Data := bf }

/-- Source `clover.Text(text)` (src/render.go): as `render.Text` but the
stored `Status` is `0`. -/
def Text (text : String) : TextRender :=
  { nop :=
      { Status := 0
        Headers :=
          [(HeaderContentTyp, ["text/plain; charset=utf-8"]),
           (HeaderContentLen, [toString (strBytes text).length])] }
    Text := strBytes text }

/-! ## The request accessor wrapper (src/request.go) -/

/-- Source `clover.request`: the wrapper's observable inputs.  `header`
models `req.raw.Header`, `urlQuery` models `req.raw.URL.Query()` (the
wrapper caches it, which is invisible to the accessors), and `postForm`
models `req.raw.PostForm` after `ParseForm`. -/
structure request where
  header : HttpHeader
  urlQuery : HttpHeader
  postForm : HttpHeader

/-- Source `request.Header(name)`: the values under `name`; if there are
none, `("", false)`, otherwise the first value and `true`. -/
def request.Header (req : request) (name : String) : String × Bool :=
  match headerValues req.header name with
  | [] => ("", false)
  | v :: _ => (v, true)

/-- Source `request.HeaderDefault(name, defaultValue)`: the `Header` value
if it is a non-empty string, the default otherwise. -/
def request.HeaderDefault (req : request) (name defaultValue : String) : String :=
  let v := (req.Header name).1
  if v ≠ "" then v else defaultValue

/-- Source `request.Query(name)`. -/
def request.Query (req : request) (name : String) : String × Bool :=
  match headerValues req.urlQuery name with
  | [] => ("", false)
  | v :: _ => (v, true)

/-- Source `request.QueryDefault(name, defaultValue)`. -/
def request.QueryDefault (req : request) (name defaultValue : String) : String :=
  let v := (req.Query name).1
  if v ≠ "" then v else defaultValue

/-- Source `request.PostForm(name)`. -/
def request.PostForm (req : request) (name : String) : String × Bool :=
  match headerValues req.postForm name with
  | [] => ("", false)
  | v :: _ => (v, true)

/-- Source `request.PostFormDefault(name, defaultValue)`. -/
def request.PostFormDefault (req : request) (name defaultValue : String) : String :=
  let v := (req.PostForm name).1
  if v ≠ "" then v else defaultValue

/-! ## `HandlerFunc.ServeHTTP` (the clover package root file in the slice) -/

/-- Source `clover.Render` interface: a renderable result knows how to
write itself to a response writer and reports an error on failure (the
error modelled by its `err.Error()` description). -/
structure Render where
  WriteTo : ResponseWriter → ResponseWriter × Option String

/-- Events performed by `HandlerFunc.ServeHTTP`, in order: the single
handler invocation, the `WriteTo` call on its result, and (only on a
`WriteTo` error) the fallback `WriteHeader(500)` plus body write. -/
inductive ServeEvent where
  | invokeHandler
  | renderWriteTo
  | fallbackWrite (status : Int) (body : List Nat)
  deriving DecidableEq

/-- Source `HandlerFunc.ServeHTTP(w, req)`: `r := h(req.Context(), req)`;
`if err := r.WriteTo(w); err != nil` then `w.WriteHeader(500)` and
`w.Write([]byte(err.Error()))`.  `ctxOf` models `req.Context()`.  The
function returns the final writer state together with the event trace. -/
def HandlerFunc.ServeHTTP {Ctx Req : Type} (h : Ctx → Req → Render)
    (ctxOf : Req → Ctx) (req : Req) (w : ResponseWriter) :
    ResponseWriter × List ServeEvent :=
  let r := h (ctxOf req) req
  let out := r.WriteTo w
  match out.2 with
  | none => (out.1, [ServeEvent.invokeHandler, ServeEvent.renderWriteTo])
  | some err =>
    (((out.1.writeHeader 500).writeBytes (strBytes err)),
     [ServeEvent.invokeHandler, ServeEvent.renderWriteTo,
      ServeEvent.fallbackWrite 500 (strBytes err)])

/-- The number of handler invocations recorded in an event trace. -/
def countInvoke : List ServeEvent → Nat
  | [] => 0
  | ServeEvent.invokeHandler :: rest => countInvoke rest + 1
  | _ :: rest => countInvoke rest

/-! ## The router facade's public surface (the `Router` and `Routes`
interfaces in the clover package root file) -/

/-- Operations declared by the source `Router` interface, as pairs of
method name and result type (`""` when the method returns nothing).
Transcribed from the interface declaration in the source slice; `Router`
additionally embeds `http.Handler` and the `Routes` interface. -/
def routerInterfaceOps : List (String × String) :=
  [("Use", ""), ("With", "Router"), ("Group", "Router"), ("Route", "Router"),
   ("Mount", ""), ("Handle", ""), ("HandleStd", ""), ("HandleFunc", ""),
   ("Method", ""), ("MethodStd", ""), ("MethodFunc", ""),
   ("NotFound", ""), ("MethodNotAllowed", "")]

/-- Operations declared by the source `Routes` interface (embedded in
`Router`): the routing-tree snapshot, the middleware list, and `Match`,
whose source doc comment states it routes like a request "but without
executing the handler thereafter". -/
def routesInterfaceOps : List (String × String) :=
  [("Routes", "[]Route"), ("Middlewares", "Middlewares"), ("Match", "bool")]

/-- Modelled from the spec: the per-HTTP-method registration variants of
`Handle` ("method-specific variants for each HTTP method").  `Get` is also
evidenced by callers inside the source slice (the URLFormat test registers
with `r.Get` on a `clover.Router` value, and the profiler uses `r.Get`);
the remaining variants' declarations are not in the slice. -/
def perMethodVariantOps : List (String × String) :=
  [("Connect", ""), ("Delete", ""), ("Get", ""), ("Head", ""),
   ("Options", ""), ("Patch", ""), ("Post", ""), ("Put", ""), ("Trace", "")]

/-- The full public surface of the router facade. -/
def routerSurface : List (String × String) :=
  routerInterfaceOps ++ routesInterfaceOps ++ perMethodVariantOps

/-- The operations the spec's router contract lists (§6), with the result
type where the spec names one (`With → scope`, `Routes → tree snapshot`,
`Middlewares → ordered list`, `Match → bool`). -/
def specContractOps : List (String × String) :=
  [("Use", ""), ("With", "Router"), ("Group", "Router"), ("Route", "Router"),
   ("Mount", ""), ("Handle", ""),
   ("Connect", ""), ("Delete", ""), ("Get", ""), ("Head", ""),
   ("Options", ""), ("Patch", ""), ("Post", ""), ("Put", ""), ("Trace", ""),
   ("NotFound", ""), ("MethodNotAllowed", ""),
   ("Routes", "[]Route"), ("Middlewares", "Middlewares"), ("Match", "bool")]

end Clover.clover

namespace Clover.middleware

/-! ## The URLFormat extension-stripping operation (middleware package) -/

/-- Modelled from the spec: the URLFormat middleware's path-rewriting step
("an extension-stripping middleware trims a trailing `.json`/`.xml` before
matching").  The middleware's own source file is not in the inspected
slice; only its test is.  The operation removes one trailing `.json` or
`.xml` suffix from the path and leaves every other path unchanged. -/
def stripFormat (path : String) : String :=
  if goHasSuffix path ".json" then goDropRight path 5
  else if goHasSuffix path ".xml" then goDropRight path 4
  else path

end Clover.middleware

namespace Clover.mux

/-!
## The routing core: pattern compiler, trie and matcher

The router's matching core is not present in the inspected source slice
(the spec itself notes it is "not present in the inspected slice but
implied by the public contract"), so the whole of this section is modelled
from the specification (§3, §4.1–§4.3, §6), as follows.

* A compiled pattern is a list of `Seg`s: `static` with a literal,
  `param` with a name, `regexParam` with a name (possibly empty) and a
  compiled expression (abstracted to its matching predicate on one path
  segment, plus the raw expression string for identity), or a trailing
  `wildcard` (§3).
* A `Node` owns static children keyed by segment literal, an ordered list
  of regexParam children (registration order), at most one param child,
  at most one wildcard child (always terminal, so only its endpoint table
  is stored), and an endpoint table from HTTP method to endpoint (§3).
  Radix compression of shared literal prefixes is a lookup-cost
  optimisation; the model keys static children by the whole segment
  literal, which matches the same paths.
* Insertion (`insertSegs`, §4.2) locates or creates the child slot for
  each segment, failing (`none`) on structural conflicts and on a
  duplicate endpoint for the same method at the same terminal node.
* The matcher (`matchNode`, §4.3) walks the path segments through the
  trie, trying children in the precedence order static → regexParam
  (registration order) → param → wildcard, backtracking to the next
  alternative when a branch fails deeper, and recording a
  method-mismatch candidate when a matched terminal node has endpoints
  but none for the requested method.
-/

/-- Modelled from the spec (§3): one typed segment of a compiled pattern. -/
inductive Seg where
  | static (lit : String)
  | param (name : String)
  | regexParam (name : String) (expr : String) (pred : String → Bool)
  | wildcard

/-- Modelled from the spec (§3): a routing-trie node.  Fields, in order:
static children keyed by literal, regexParam children in registration
order (name, expression, compiled predicate, child), the optional param
child, the optional wildcard child's endpoint table, and this node's
endpoint table (method ↦ endpoint identifier). -/
inductive Node : Type where
  | mk (statics : List (String × Node))
       (regexes : List (String × String × (String → Bool) × Node))
       (paramChild : Option (String × Node))
       (wild : Option (List (String × Nat)))
       (endpoints : List (String × Nat))

/-- Association-list lookup by string key. -/
def lookupBy {β : Type} (k : String) : List (String × β) → Option β
  | [] => none
  | (k0, v) :: rest => if k0 = k then some v else lookupBy k rest

/-- A trie node with no children and no endpoints. -/
def emptyNode : Node := .mk [] [] none none []

/-- Locate an existing regexParam child by its name and expression. -/
def lookupRegex (name expr : String) :
    List (String × String × (String → Bool) × Node) → Option Node
  | [] => none
  | (n0, e0, _, c) :: rest =>
    if n0 = name ∧ e0 = expr then some c else lookupRegex name expr rest

/-- Replace the regexParam child identified by name and expression. -/
def replaceRegex (name expr : String) (c2 : Node) :
    List (String × String × (String → Bool) × Node) →
    List (String × String × (String → Bool) × Node)
  | [] => []
  | (n0, e0, p0, c) :: rest =>
    if n0 = name ∧ e0 = expr then (n0, e0, p0, c2) :: rest
    else (n0, e0, p0, c) :: replaceRegex name expr c2 rest

/-- Modelled from the spec (§4.2): insert a compiled pattern's segments
into the trie, attaching endpoint `e` for HTTP method `m` at the terminal
node.  Returns `none` on a registration-time error: a structural conflict
(a second param child with a different name, segments after a wildcard) or
a duplicate endpoint for the same method at the same terminal node. -/
def insertSegs : Node → List Seg → String → Nat → Option Node
  | .mk st rx pr wc eps, [], m, e =>
    match lookupBy m eps with
    | some _ => none
    | none => some (.mk st rx pr wc (eps ++ [(m, e)]))
  | .mk st rx pr wc eps, .static lit :: rest, m, e =>
    match lookupBy lit st with
    | some child =>
      match insertSegs child rest m e with
      | some c2 =>
        some (.mk (st.map (fun kv => if kv.1 = lit then (lit, c2) else kv)) rx pr wc eps)
      | none => none
    | none =>
      match insertSegs emptyNode rest m e with
      | some c2 => some (.mk (st ++ [(lit, c2)]) rx pr wc eps)
      | none => none
  | .mk st rx pr wc eps, .regexParam name expr pred :: rest, m, e =>
    match lookupRegex name expr rx with
    | some child =>
      match insertSegs child rest m e with
      | some c2 => some (.mk st (replaceRegex name expr c2 rx) pr wc eps)
      | none => none
    | none =>
      match insertSegs emptyNode rest m e with
      | some c2 => some (.mk st (rx ++ [(name, expr, pred, c2)]) pr wc eps)
      | none => none
  | .mk st rx pr wc eps, .param name :: rest, m, e =>
    match pr with
    | some (n0, child) =>
      if n0 = name then
        match insertSegs child rest m e with
        | some c2 => some (.mk st rx (some (n0, c2)) wc eps)
        | none => none
      else none
    | none =>
      match insertSegs emptyNode rest m e with
      | some c2 => some (.mk st rx (some (name, c2)) wc eps)
      | none => none
  | .mk st rx pr wc eps, .wildcard :: rest, m, e =>
    match rest with
    | _ :: _ => none
    | [] =>
      match wc with
      | some tbl =>
        match lookupBy m tbl with
        | some _ => none
        | none => some (.mk st rx pr (some (tbl ++ [(m, e)])) eps)
      | none => some (.mk st rx pr (some [(m, e)]) eps)

/-- Modelled from the spec (§4.3): the matcher's internal outcome while
walking the trie: either a matched endpoint with the accumulated parameter
bindings (most recent first), or a miss, optionally carrying the method
set of the first method-mismatch candidate encountered (a terminal node
that matched the path but had no endpoint for the requested method). -/
inductive MOut where
  | found (ep : Nat) (params : List (String × String))
  | miss (cand : Option (List String))
  deriving DecidableEq

/-- Combine two alternatives in precedence order: a found result on the
left short-circuits; a found result on the right overrides a left miss;
the first method-mismatch candidate (the left one) is kept otherwise. -/
def MOut.orElse : MOut → MOut → MOut
  | .found e p, _ => .found e p
  | .miss none, r => r
  | .miss (some ms), r =>
    match r with
    | .found e p => .found e p
    | .miss _ => .miss (some ms)

/-- Try the wildcard child: it is terminal and consumes the entire
remainder of the path, the segments joined back with `/`, bound under the
name `*`. -/
def matchWildChild (method : String) (ps : List (String × String))
    (wc : Option (List (String × Nat))) (s : String) (rest : List String) : MOut :=
  match wc with
  | some tbl =>
    match lookupBy method tbl with
    | some e => .found e (("*", goJoin (s :: rest) '/') :: ps)
    | none =>
      if tbl.isEmpty then .miss none else .miss (some (tbl.map Prod.fst))
  | none => .miss none

mutual

/-- Modelled from the spec (§4.3): match the remaining path segments at a
trie node.  With no segments left, succeed on an endpoint for the method,
and otherwise record this terminal node's method set as a mismatch
candidate (if it has any endpoints).  With a segment left, try the static
children, then the regexParam children in registration order, then the
param child, then the wildcard child (which consumes the entire remainder,
joined back with `/`), backtracking through `MOut.orElse`. -/
def matchNode (method : String) (ps : List (String × String)) :
    Node → List String → MOut
  | .mk _st _rx _pr _wc eps, [] =>
    match lookupBy method eps with
    | some e => .found e ps
    | none => if eps.isEmpty then .miss none else .miss (some (eps.map Prod.fst))
  | .mk st rx pr wc _eps, s :: rest =>
    MOut.orElse (matchStatics method ps st s rest)
      (MOut.orElse (matchRegexes method ps rx s rest)
        (MOut.orElse (matchParamChild method ps pr s rest)
          (matchWildChild method ps wc s rest)))

/-- Try the param child: it consumes the current segment, binding its name
to it. -/
def matchParamChild (method : String) (ps : List (String × String)) :
    Option (String × Node) → String → List String → MOut
  | some (n2, c), s, rest => matchNode method ((n2, s) :: ps) c rest
  | none, _, _ => .miss none

/-- Try the static children: the child whose literal equals the current
segment (insertion keeps literals unique) continues the walk. -/
def matchStatics (method : String) (ps : List (String × String)) :
    List (String × Node) → String → List String → MOut
  | [], _, _ => .miss none
  | (k, c) :: more, s, rest =>
    if k = s then matchNode method ps c rest
    else matchStatics method ps more s rest

/-- Try the regexParam children in registration order: each whose
predicate accepts the current segment is tried (binding its name to the
segment), backtracking to later children on failure. -/
def matchRegexes (method : String) (ps : List (String × String)) :
    List (String × String × (String → Bool) × Node) → String → List String → MOut
  | [], _, _ => .miss none
  | (n2, _e, pred, c) :: more, s, rest =>
    if pred s then
      MOut.orElse (matchNode method ((n2, s) :: ps) c rest)
        (matchRegexes method ps more s rest)
    else matchRegexes method ps more s rest

end

/-- Modelled from the spec (§7): the three serve-time outcomes. -/
inductive MatchResult where
  | matched (ep : Nat) (params : List (String × String))
  | methodNotAllowed (allow : List String)
  | notFound
  deriving DecidableEq

/-- The parameter bindings of a matched result (empty otherwise). -/
def MatchResult.params : MatchResult → List (String × String)
  | .matched _ ps => ps
  | _ => []

/-- Split a request path into segments: strip one leading `/`, then split
on `/` (adversarial inputs — no leading slash, empty segments — still
yield a deterministic segment list). -/
def splitPath (p : String) : List String :=
  if goHasPrefixStr p "/" then goSplit (goDropLeft p 1) '/'
  else goSplit p '/'

/-- Modelled from the spec (§4.3, §7): match a method and path against the
trie, resolving to exactly one of the three serve-time outcomes. -/
def matchPath (root : Node) (method path : String) : MatchResult :=
  match matchNode method [] root (splitPath path) with
  | .found e ps => .matched e ps
  | .miss (some ms) => .methodNotAllowed ms
  | .miss none => .notFound

/-- Modelled from the spec (§4.5, §6): parameter lookup by name scans the
bindings most-recent-first, so the innermost binding of a repeated name
wins. -/
def URLParam (ps : List (String × String)) (name : String) : Option String :=
  lookupBy name ps

/-- Modelled from the spec (§4.1): classify one `/`-separated token of a
pattern.  `compileRe` abstracts Go regex compilation, mapping an
expression string to its matching predicate on a segment.  Failures
(`none`): an empty segment, an unterminated brace, a brace inside a regex
expression, per §4.1. -/
def classifyToken (compileRe : String → String → Bool) (tok : String) : Option Seg :=
  if tok = "" then none
  else if tok = "*" then some .wildcard
  else if goHasPrefixStr tok "\x7b" then
    if goHasSuffix tok "\x7d" then
      let inner := goDropRight (goDropLeft tok 1) 1
      match splitOnChar ':' inner.data with
      | [] => none
      | [_] => some (.param inner)
      | nameCs :: exprParts =>
        let expr := String.mk (joinWithChar ':' exprParts)
        if expr.data.any (fun c => c == '\x7b' || c == '\x7d') then none
        else some (.regexParam (String.mk nameCs) expr (compileRe expr))
    else none
  else if tok.data.any (fun c => c == '\x7b' || c == '\x7d') then none
  else some (.static tok)

/-- Classify every token, requiring any wildcard to be the final token. -/
def compileTokens (compileRe : String → String → Bool) :
    List String → Option (List Seg)
  | [] => some []
  | t :: rest =>
    match classifyToken compileRe t with
    | none => none
    | some .wildcard => if rest.isEmpty then some [Seg.wildcard] else none
    | some s =>
      match compileTokens compileRe rest with
      | some segs => some (s :: segs)
      | none => none

/-- Modelled from the spec (§4.1): compile a raw pattern string.  The
pattern must begin with `/`; `"/"` itself compiles to the empty segment
list (the root). -/
def compilePattern (compileRe : String → String → Bool) (p : String) :
    Option (List Seg) :=
  if goHasPrefixStr p "/" then
    if p = "/" then some []
    else compileTokens compileRe (goSplit (goDropLeft p 1) '/')
  else none

/-- A regex-compilation environment with no registered expressions; the
claims' concrete patterns contain no regexParam segments. -/
def noRe : String → String → Bool := fun _ _ => false

/-- Register one route (pattern string, method, endpoint) on a partially
built trie, propagating registration failures. -/
def registerRoute (compileRe : String → String → Bool) (t : Option Node)
    (pat method : String) (ep : Nat) : Option Node :=
  match t, compilePattern compileRe pat with
  | some n, some segs => insertSegs n segs method ep
  | _, _ => none

/-- Build a trie by registering a list of (pattern, method, endpoint)
routes in order. -/
def buildRouter (compileRe : String → String → Bool)
    (routes : List (String × String × Nat)) : Option Node :=
  routes.foldl (fun acc r => registerRoute compileRe acc r.1 r.2.1 r.2.2)
    (some emptyNode)

/-- Match against a route table built from pattern strings; a failed
registration yields `notFound` for every request (registration failures
abort construction, §7; the claims only use successfully built tables,
asserted separately via `(buildRouter ..).isSome`). -/
def matchRouter (compileRe : String → String → Bool)
    (routes : List (String × String × Nat)) (method path : String) : MatchResult :=
  match buildRouter compileRe routes with
  | some t => matchPath t method path
  | none => .notFound

/-- Modelled from the spec (§4.3): the path segments reach, from this
node, some terminal trie node whose (nonempty) endpoint table registers
exactly the methods `ms` — the "matching terminal node" whose method set
a method-not-allowed outcome carries. -/
inductive ReachesMethods : Node → List String → List String → Prop where
  | here : ∀ st rx pr wc eps, eps ≠ [] →
      ReachesMethods (.mk st rx pr wc eps) [] (eps.map Prod.fst)
  | static : ∀ st rx pr wc eps s rest ms c, (s, c) ∈ st →
      ReachesMethods c rest ms →
      ReachesMethods (.mk st rx pr wc eps) (s :: rest) ms
  | regex : ∀ st rx pr wc eps s rest ms n2 e2 pred c, (n2, e2, pred, c) ∈ rx →
      pred s = true → ReachesMethods c rest ms →
      ReachesMethods (.mk st rx pr wc eps) (s :: rest) ms
  | param : ∀ st rx pr wc eps s rest ms n2 c, pr = some (n2, c) →
      ReachesMethods c rest ms →
      ReachesMethods (.mk st rx pr wc eps) (s :: rest) ms
  | wild : ∀ st rx pr wc eps s rest tbl, wc = some tbl → tbl ≠ [] →
      ReachesMethods (.mk st rx pr wc eps) (s :: rest) (tbl.map Prod.fst)

/-- The spec's static-versus-param scenario: `/users/me` (endpoint 0) and
`/users/\x7bid\x7d` (endpoint 1), static route registered first. -/
def usersRoutes : List (String × String × Nat) :=
  [("/users/me", "GET", 0), ("/users/{id}", "GET", 1)]

/-- The same two routes with the param route registered first. -/
def usersRoutesRev : List (String × String × Nat) :=
  [("/users/{id}", "GET", 1), ("/users/me", "GET", 0)]

/-- The spec's wildcard scenario: `/files/*` (endpoint 0). -/
def filesRoutes : List (String × String × Nat) :=
  [("/files/*", "GET", 0)]

/-- The spec's URLFormat scenario: `/articles/\x7barticleID\x7d` (endpoint 0). -/
def articlesRoutes : List (String × String × Nat) :=
  [("/articles/{articleID}", "GET", 0)]

/-- A concrete trie (the users table) used to instantiate universally
quantified theorems at a closed input. -/
def demoNode : Node :=
  (buildRouter noRe usersRoutes).getD emptyNode

end Clover.mux

namespace Clover.clover

/-- A concrete renderable result whose write always succeeds. -/
def okRender : Render :=
  { WriteTo := fun w => (w.writeBytes [111, 107], none) }

/-- A concrete renderable result whose write fails with description
`"boom"`. -/
def boomRender : Render :=
  { WriteTo := fun w => (w, some "boom") }

/-- An empty response-writer state. -/
def emptyWriter : ResponseWriter :=
  { header := [], statuses := [], body := [] }

/-- A concrete request-accessor wrapper state used to instantiate the
accessor theorems at a closed input. -/
def demoRequest : request :=
  { header := [("X-A", ["a"]), ("X-Empty", [""])]
    urlQuery := [("q", ["v", "w"])]
    postForm := [("f", [""])] }

end Clover.clover
namespace Clover

/-! # Theorems -/

/-- C8: the clover-package and render-package constructors are
observationally equivalent: for every marshaled byte slice and every text,
`clover.JSON(data).WriteTo` and `render.JSON(data).WriteTo` produce the
same writer state and error (likewise `Text`), although the clover
constructors store `Status = 0` and the render constructors `Status = 200`,
because `NopRender.WriteTo` writes status 200 whenever the stored status
is not positive. -/
theorem clover_render_constructors_equivalent (bf : List Nat) (text : String)
    (w : ResponseWriter) :
    (clover.JSON bf).WriteTo w = (render.JSON bf).WriteTo w ∧
    (clover.Text text).WriteTo w = (render.Text text).WriteTo w := by
  constructor <;>
    norm_num [clover.JSON, clover.Text, render.JSON, render.Text,
      clover.JSONRender.WriteTo, render.JSONRender.WriteTo,
      clover.TextRender.WriteTo, render.TextRender.WriteTo,
      clover.NopRender.WriteTo, render.NopRender.WriteTo,
      clover.HeaderContentTyp, render.HeaderContentTyp,
      clover.HeaderContentLen, render.HeaderContentLen]

/-- C7 counterexample: the extension-stripping operation is not idempotent
on every path: stripping `/a.json.json` once yields `/a.json`, and
stripping that already-stripped path truncates further to `/a`. -/
theorem stripFormat_not_idempotent :
    middleware.stripFormat (middleware.stripFormat "/a.json.json") ≠
      middleware.stripFormat "/a.json.json" := by decide

/-- C7 (amended): the extension-stripping operation is idempotent on every
path whose stripped form does not itself still end in `.json` or `.xml`:
for such a path, stripping the already-stripped path returns it
unchanged. -/
theorem stripFormat_idempotent_unless_stacked (p : String)
    (h1 : goHasSuffix (middleware.stripFormat p) ".json" = false)
    (h2 : goHasSuffix (middleware.stripFormat p) ".xml" = false) :
    middleware.stripFormat (middleware.stripFormat p) =
      middleware.stripFormat p := by
  have h : ∀ q : String, goHasSuffix q ".json" = false →
      goHasSuffix q ".xml" = false → middleware.stripFormat q = q := by
    intro q hq1 hq2
    unfold middleware.stripFormat
    rw [hq1, hq2]
    simp
  exact h _ h1 h2

/-- C7 witness: the amended idempotence at the spec's own example path
`/articles/1.json`. -/
theorem stripFormat_idempotent_witness :
    middleware.stripFormat (middleware.stripFormat "/articles/1.json") =
      middleware.stripFormat "/articles/1.json" :=
  stripFormat_idempotent_unless_stacked "/articles/1.json" (by decide) (by decide)

end Clover
namespace Clover

/-- C10: for every render value produced by the JSON, Text and Redirect
constructors (in both packages), the Content-Length header stored in the
render is exactly the length of the body chunk that its `WriteTo`
subsequently writes. -/
theorem content_length_matches_body (bf : List Nat) (text : String)
    (status : Int) (location : String) (texts : List String)
    (w : ResponseWriter) :
    (headerValues (render.JSON bf).nop.Headers render.HeaderContentLen =
        [toString bf.length] ∧
      ((render.JSON bf).WriteTo w).1.body = w.body ++ [bf]) ∧
    (headerValues (render.Text text).nop.Headers render.HeaderContentLen =
        [toString (strBytes text).length] ∧
      ((render.Text text).WriteTo w).1.body = w.body ++ [strBytes text]) ∧
    (headerValues (render.Redirect status location texts).nop.Headers
        render.HeaderContentLen = [toString (render.redirectBody texts).length] ∧
      ((render.Redirect status location texts).WriteTo w).1.body =
        w.body ++ [render.redirectBody texts]) ∧
    (headerValues (clover.JSON bf).nop.Headers clover.HeaderContentLen =
        [toString bf.length] ∧
      ((clover.JSON bf).WriteTo w).1.body = w.body ++ [bf]) ∧
    (headerValues (clover.Text text).nop.Headers clover.HeaderContentLen =
        [toString (strBytes text).length] ∧
      ((clover.Text text).WriteTo w).1.body = w.body ++ [strBytes text]) := by
  refine ⟨⟨?_, ?_⟩, ⟨?_, ?_⟩, ⟨?_, ?_⟩, ⟨?_, ?_⟩, ⟨?_, ?_⟩⟩ <;>
    first
    | rfl
    | (simp [render.JSON, render.Text, render.Redirect, clover.JSON, clover.Text,
        render.JSONRender.WriteTo, render.TextRender.WriteTo,
        render.RedirectRender.WriteTo, clover.JSONRender.WriteTo,
        clover.TextRender.WriteTo, render.NopRender.WriteTo,
        clover.NopRender.WriteTo, ResponseWriter.writeBytes,
        ResponseWriter.writeHeader]
       split <;> rfl)

/-- C9: the request accessors `Header`, `Query` and `PostForm` return
`("", false)` when the key has no values and the first value with `true`
otherwise; the `Default` variants return the supplied default when the
underlying first value is absent or the empty string, and that first value
otherwise. -/
theorem request_accessor_defaults (req : clover.request) (name d : String) :
    (headerValues req.header name = [] → req.Header name = ("", false)) ∧
    (∀ v vs, headerValues req.header name = v :: vs →
      req.Header name = (v, true)) ∧
    (headerValues req.urlQuery name = [] → req.Query name = ("", false)) ∧
    (∀ v vs, headerValues req.urlQuery name = v :: vs →
      req.Query name = (v, true)) ∧
    (headerValues req.postForm name = [] → req.PostForm name = ("", false)) ∧
    (∀ v vs, headerValues req.postForm name = v :: vs →
      req.PostForm name = (v, true)) ∧
    (req.HeaderDefault name d =
      match headerValues req.header name with
      | [] => d
      | v :: _ => if v = "" then d else v) ∧
    (req.QueryDefault name d =
      match headerValues req.urlQuery name with
      | [] => d
      | v :: _ => if v = "" then d else v) ∧
    (req.PostFormDefault name d =
      match headerValues req.postForm name with
      | [] => d
      | v :: _ => if v = "" then d else v) := by
  refine ⟨?_, ?_, ?_, ?_, ?_, ?_, ?_, ?_, ?_⟩
  · intro h; simp [clover.request.Header, h]
  · intro v vs h; simp [clover.request.Header, h]
  · intro h; simp [clover.request.Query, h]
  · intro v vs h; simp [clover.request.Query, h]
  · intro h; simp [clover.request.PostForm, h]
  · intro v vs h; simp [clover.request.PostForm, h]
  · rcases h : headerValues req.header name with _ | ⟨v, vs⟩ <;>
      simp [clover.request.HeaderDefault, clover.request.Header, h]
  · rcases h : headerValues req.urlQuery name with _ | ⟨v, vs⟩ <;>
      simp [clover.request.QueryDefault, clover.request.Query, h]
  · rcases h : headerValues req.postForm name with _ | ⟨v, vs⟩ <;>
      simp [clover.request.PostFormDefault, clover.request.PostForm, h]

/-- C9 witness: the accessor contract evaluated on a concrete request with
a present header, a present-but-empty form value, a missing key, and a
two-valued query key. -/
theorem request_accessor_defaults_witness :
    clover.demoRequest.Header "X-A" = ("a", true) ∧
    clover.demoRequest.Header "X-Missing" = ("", false) ∧
    clover.demoRequest.Query "q" = ("v", true) ∧
    clover.demoRequest.PostForm "f" = ("", true) ∧
    clover.demoRequest.HeaderDefault "X-Empty" "dflt" = "dflt" ∧
    clover.demoRequest.QueryDefault "q" "dflt" = "v" ∧
    clover.demoRequest.PostFormDefault "f" "dflt" = "dflt" := by
  refine ⟨?_, ?_, ?_, ?_, ?_, ?_, ?_⟩
  · exact (request_accessor_defaults clover.demoRequest "X-A" "d").2.1 "a" [] (by decide)
  · exact (request_accessor_defaults clover.demoRequest "X-Missing" "d").1 (by decide)
  · exact (request_accessor_defaults clover.demoRequest "q" "d").2.2.2.1 "v" ["w"] (by decide)
  · exact (request_accessor_defaults clover.demoRequest "f" "d").2.2.2.2.2.1 "" [] (by decide)
  · exact (request_accessor_defaults clover.demoRequest "X-Empty" "dflt").2.2.2.2.2.2.1.trans (by decide)
  · exact (request_accessor_defaults clover.demoRequest "q" "dflt").2.2.2.2.2.2.2.1.trans (by decide)
  · exact (request_accessor_defaults clover.demoRequest "f" "dflt").2.2.2.2.2.2.2.2.trans (by decide)

end Clover
namespace Clover

/-- C1: for every handler and request, `HandlerFunc.ServeHTTP` records
exactly one handler invocation and writes the handler's renderable result
via `WriteTo`; when `WriteTo` returns no error the writer is left exactly
as `WriteTo` left it (nothing further is written), and when `WriteTo`
returns an error the writer additionally receives status 500 and the
error's description as body — and only then. -/
theorem serveHTTP_invoke_once_fallback (Ctx Req : Type)
    (h : Ctx → Req → clover.Render) (ctxOf : Req → Ctx) (req : Req)
    (w : ResponseWriter) :
    clover.countInvoke (clover.HandlerFunc.ServeHTTP h ctxOf req w).2 = 1 ∧
    (∀ w1, (h (ctxOf req) req).WriteTo w = (w1, none) →
      clover.HandlerFunc.ServeHTTP h ctxOf req w =
        (w1, [clover.ServeEvent.invokeHandler, clover.ServeEvent.renderWriteTo])) ∧
    (∀ w1 err, (h (ctxOf req) req).WriteTo w = (w1, some err) →
      clover.HandlerFunc.ServeHTTP h ctxOf req w =
        ((w1.writeHeader 500).writeBytes (strBytes err),
         [clover.ServeEvent.invokeHandler, clover.ServeEvent.renderWriteTo,
          clover.ServeEvent.fallbackWrite 500 (strBytes err)])) := by
  refine ⟨?_, ?_, ?_⟩
  · rcases hout : (h (ctxOf req) req).WriteTo w with ⟨w1, e⟩
    cases e <;> simp [clover.HandlerFunc.ServeHTTP, hout, clover.countInvoke]
  · intro w1 hout
    simp [clover.HandlerFunc.ServeHTTP, hout]
  · intro w1 err hout
    simp [clover.HandlerFunc.ServeHTTP, hout]

/-- C1 witness: the contract evaluated at a failing concrete render (error
`"boom"` becomes a 500 with body `boom`) and at a succeeding one (nothing
written beyond the render's own output). -/
theorem serveHTTP_invoke_once_fallback_witness :
    clover.HandlerFunc.ServeHTTP (fun (_ : Unit) (_ : Unit) => clover.boomRender)
        id () clover.emptyWriter =
      ((clover.emptyWriter.writeHeader 500).writeBytes (strBytes "boom"),
       [clover.ServeEvent.invokeHandler, clover.ServeEvent.renderWriteTo,
        clover.ServeEvent.fallbackWrite 500 (strBytes "boom")]) ∧
    clover.HandlerFunc.ServeHTTP (fun (_ : Unit) (_ : Unit) => clover.okRender)
        id () clover.emptyWriter =
      (clover.emptyWriter.writeBytes [111, 107],
       [clover.ServeEvent.invokeHandler, clover.ServeEvent.renderWriteTo]) := by
  constructor
  · exact (serveHTTP_invoke_once_fallback Unit Unit
      (fun _ _ => clover.boomRender) id () clover.emptyWriter).2.2
      clover.emptyWriter "boom" rfl
  · exact (serveHTTP_invoke_once_fallback Unit Unit
      (fun _ _ => clover.okRender) id () clover.emptyWriter).2.1
      (clover.emptyWriter.writeBytes [111, 107]) rfl

/-- C5: the router facade's public surface exposes every operation the
spec's router contract lists — `Use`, `With` returning a derived scope
(`Router`), `Group`, `Route`, `Mount`, `Handle` plus per-method variants
for each HTTP method, `NotFound`, `MethodNotAllowed`, `Routes` returning
the tree snapshot (`[]Route`), `Middlewares` returning the ordered
middleware list, and `Match(rctx, method, path)` returning `bool`. -/
theorem router_surface_complete (op : String × String)
    (hop : op ∈ clover.specContractOps) : op ∈ clover.routerSurface := by
  fin_cases hop <;> decide

/-- C5 witness: `Match → bool` is part of the surface. -/
theorem router_surface_complete_witness :
    ("Match", "bool") ∈ clover.routerSurface :=
  router_surface_complete ("Match", "bool") (by decide)

end Clover
namespace Clover

/-- C3: the matcher tries a node's children in the fixed order static →
regexParam (registration order) → param → wildcard: a found result from
the static children is the node's result regardless of the other branches,
the regexParam branch is consulted only after the statics missed, the
param child only after both missed, and the wildcard child last; in
particular, with `/users/me` (endpoint 0) and `/users/{id}` (endpoint 1)
both registered — in either registration order — a request for
`/users/me` resolves to the static endpoint 0 with no bindings, never to
the param endpoint. -/
theorem match_precedence_static_first :
    (∀ method ps st rx pr wc eps s rest e p,
      mux.matchStatics method ps st s rest = .found e p →
      mux.matchNode method ps (.mk st rx pr wc eps) (s :: rest) = .found e p) ∧
    (∀ method ps st rx pr wc eps s rest c e p,
      mux.matchStatics method ps st s rest = .miss c →
      mux.matchRegexes method ps rx s rest = .found e p →
      mux.matchNode method ps (.mk st rx pr wc eps) (s :: rest) = .found e p) ∧
    (∀ method ps st rx pr wc eps s rest c1 c2 e p,
      mux.matchStatics method ps st s rest = .miss c1 →
      mux.matchRegexes method ps rx s rest = .miss c2 →
      mux.matchParamChild method ps pr s rest = .found e p →
      mux.matchNode method ps (.mk st rx pr wc eps) (s :: rest) = .found e p) ∧
    (∀ method ps st rx pr wc eps s rest c1 c2 c3 e p,
      mux.matchStatics method ps st s rest = .miss c1 →
      mux.matchRegexes method ps rx s rest = .miss c2 →
      mux.matchParamChild method ps pr s rest = .miss c3 →
      mux.matchWildChild method ps wc s rest = .found e p →
      mux.matchNode method ps (.mk st rx pr wc eps) (s :: rest) = .found e p) ∧
    ((mux.buildRouter mux.noRe mux.usersRoutes).isSome = true ∧
     mux.matchRouter mux.noRe mux.usersRoutes "GET" "/users/me" =
       .matched 0 [] ∧
     mux.matchRouter mux.noRe mux.usersRoutes "GET" "/users/me" ≠
       .matched 1 [("id", "me")]) ∧
    ((mux.buildRouter mux.noRe mux.usersRoutesRev).isSome = true ∧
     mux.matchRouter mux.noRe mux.usersRoutesRev "GET" "/users/me" =
       .matched 0 [] ∧
     mux.matchRouter mux.noRe mux.usersRoutesRev "GET" "/users/me" ≠
       .matched 1 [("id", "me")]) := by
  refine ⟨?_, ?_, ?_, ?_, by decide, by decide⟩
  · intro method ps st rx pr wc eps s rest e p h1
    simp [mux.matchNode, h1, mux.MOut.orElse]
  · intro method ps st rx pr wc eps s rest c e p h1 h2
    cases c <;> simp [mux.matchNode, h1, h2, mux.MOut.orElse]
  · intro method ps st rx pr wc eps s rest c1 c2 e p h1 h2 h3
    cases c1 <;> cases c2 <;>
      simp [mux.matchNode, h1, h2, h3, mux.MOut.orElse]
  · intro method ps st rx pr wc eps s rest c1 c2 c3 e p h1 h2 h3 h4
    cases c1 <;> cases c2 <;> cases c3 <;>
      simp [mux.matchNode, h1, h2, h3, h4, mux.MOut.orElse]

/-- C3 witness: the static-first rule applied at a concrete node whose
static child and param child would both match the segment `me`: the
result is the static child's endpoint. -/
theorem match_precedence_static_first_witness :
    mux.matchNode "GET" []
      (.mk [("me", .mk [] [] none none [("GET", 0)])] [] (some ("id", .mk [] [] none none [("GET", 1)])) none [])
      ["me"] = .found 0 [] :=
  match_precedence_static_first.1 "GET" []
    [("me", .mk [] [] none none [("GET", 0)])] []
    (some ("id", .mk [] [] none none [("GET", 1)])) none [] "me" [] 0 []
    (by decide)

/-- C6: with pattern `/articles/{articleID}` registered and the
extension-stripping step applied first, the request path
`/articles/1.json` is stripped to `/articles/1`, matches that endpoint,
and parameter lookup for `articleID` yields `"1"`. -/
theorem urlformat_strip_then_match :
    middleware.stripFormat "/articles/1.json" = "/articles/1" ∧
    (mux.buildRouter mux.noRe mux.articlesRoutes).isSome = true ∧
    mux.matchRouter mux.noRe mux.articlesRoutes "GET"
        (middleware.stripFormat "/articles/1.json") =
      .matched 0 [("articleID", "1")] ∧
    mux.URLParam
        (mux.matchRouter mux.noRe mux.articlesRoutes "GET"
          (middleware.stripFormat "/articles/1.json")).params "articleID" =
      some "1" := by
  exact ⟨by decide, by decide, by decide, by decide⟩

end Clover
namespace Clover

/-- Splitting always yields at least one group. -/
theorem splitOnChar_ne_nil (c : Char) (l : List Char) : splitOnChar c l ≠ [] := by
  induction l with
  | nil => simp [splitOnChar]
  | cons x xs ih =>
    simp only [splitOnChar]
    split
    · simp
    · split
      · simp
      · simp

/-- Splitting a list with a leading separator-free group peels it off. -/
theorem splitOnChar_append_sep (c : Char) (g l : List Char) (hg : c ∉ g) :
    splitOnChar c (g ++ c :: l) = g :: splitOnChar c l := by
  induction g with
  | nil => simp [splitOnChar]
  | cons x xs ih =>
    have hx : ¬ x = c := fun h => hg (by simp [h])
    have hxs : c ∉ xs := fun h => hg (List.mem_cons_of_mem _ h)
    simp only [List.cons_append, splitOnChar, List.append_eq, ih hxs, if_neg hx]

/-- Joining undoes splitting. -/
theorem joinWithChar_splitOnChar (c : Char) (l : List Char) :
    joinWithChar c (splitOnChar c l) = l := by
  induction l with
  | nil => rfl
  | cons x xs ih =>
    rcases hr : splitOnChar c xs with _ | ⟨g, gs⟩
    · exact absurd hr (splitOnChar_ne_nil c xs)
    · rw [hr] at ih
      by_cases hx : x = c
      · subst hx
        simp only [splitOnChar, if_pos rfl, hr]
        simpa [joinWithChar] using ih
      · simp only [splitOnChar, if_neg hx, hr]
        cases gs with
        | nil => simpa [joinWithChar] using congrArg (x :: ·) ih
        | cons g2 gs2 => simpa [joinWithChar] using congrArg (x :: ·) ih

end Clover
namespace Clover

/-- Splitting the path `/files/<rest>` yields `files` followed by the
split of `<rest>`. -/
theorem splitPath_files (rest : String) :
    mux.splitPath ("/files/" ++ rest) =
      "files" :: (splitOnChar '/' rest.data).map String.mk := by
  have hdata : ("/files/" ++ rest).data = '/' :: ("files".data ++ '/' :: rest.data) := by
    rw [String.data_append]; rfl
  have hpre : goHasPrefixStr ("/files/" ++ rest) "/" = true := by
    simp [goHasPrefixStr, hdata, List.isPrefixOf]
  have hdrop : goDropLeft ("/files/" ++ rest) 1 =
      String.mk ("files".data ++ '/' :: rest.data) := by
    simp [goDropLeft, hdata]
  have hnosep : '/' ∉ "files".data := by decide
  simp only [mux.splitPath, hpre, if_pos, hdrop, goSplit,
    splitOnChar_append_sep '/' "files".data rest.data hnosep, List.map_cons]

/-- C4: a trailing wildcard segment matches the entire remainder of the
path including `/` characters: with `/files/*` registered, every request
path of the form `/files/<rest>` matches that endpoint and binds the
wildcard segment `*` to `<rest>`; in particular `/files/a/b/c` matches
with the wildcard bound to `a/b/c`. -/
theorem wildcard_matches_remainder :
    (mux.buildRouter mux.noRe mux.filesRoutes).isSome = true ∧
    (∀ rest : String,
      mux.matchRouter mux.noRe mux.filesRoutes "GET" ("/files/" ++ rest) =
        .matched 0 [("*", rest)]) ∧
    mux.matchRouter mux.noRe mux.filesRoutes "GET" "/files/a/b/c" =
      .matched 0 [("*", "a/b/c")] := by
  refine ⟨by decide, ?_, by decide⟩
  intro rest
  have hT : mux.buildRouter mux.noRe mux.filesRoutes =
      some (.mk [("files", .mk [] [] none (some [("GET", 0)]) [])] [] none none []) := rfl
  rcases hsp : splitOnChar '/' rest.data with _ | ⟨g, gs⟩
  · exact absurd hsp (splitOnChar_ne_nil '/' rest.data)
  · have key : goJoin (String.mk g :: gs.map String.mk) '/' = rest := by
      have h1 : (gs.map String.mk).map String.data = gs := by
        rw [List.map_map]; exact List.map_id gs
      simp only [goJoin, List.map_cons, h1]
      show String.mk (joinWithChar '/' (g :: gs)) = rest
      rw [← hsp, joinWithChar_splitOnChar]
    simp only [mux.matchRouter, hT, mux.matchPath, splitPath_files, hsp, List.map_cons]
    simp only [mux.matchNode, mux.matchStatics, mux.matchRegexes,
      mux.matchParamChild, mux.matchWildChild, mux.lookupBy, mux.MOut.orElse,
      if_pos rfl, key]
    simp

end Clover
namespace Clover

/-- A combined alternative misses with a candidate only if the left
branch does (and the right also missed), or the left missed without a
candidate and the right misses with one. -/
theorem MOut_orElse_eq_miss_some (x y : mux.MOut) (ms : List String)
    (h : mux.MOut.orElse x y = .miss (some ms)) :
    (x = .miss (some ms) ∧ ∃ cy, y = .miss cy) ∨
    (x = .miss none ∧ y = .miss (some ms)) := by
  rcases x with ⟨e, p⟩ | ⟨(_ | ms2)⟩
  · simp [mux.MOut.orElse] at h
  · simp [mux.MOut.orElse] at h
    right; exact ⟨rfl, h ▸ rfl⟩
  · rcases y with ⟨e2, p2⟩ | cy
    · simp [mux.MOut.orElse] at h
    · simp [mux.MOut.orElse] at h
      left; exact ⟨by rw [h], cy, rfl⟩

/-- If the static children miss with a method-set candidate, some static
child matching the segment reaches a terminal with that method set. -/
theorem matchStatics_miss_sound (method s : String) (rest : List String)
    (IH : ∀ (n : mux.Node) (ps : List (String × String)) (ms : List String),
      mux.matchNode method ps n rest = .miss (some ms) →
      ms ≠ [] ∧ mux.ReachesMethods n rest ms) :
    ∀ (lst : List (String × mux.Node)) (ps : List (String × String))
      (ms : List String),
      mux.matchStatics method ps lst s rest = .miss (some ms) →
      ms ≠ [] ∧ ∃ c, (s, c) ∈ lst ∧ mux.ReachesMethods c rest ms := by
  intro lst
  induction lst with
  | nil => intro ps ms h; simp [mux.matchStatics] at h
  | cons kc more ihl =>
    intro ps ms h
    rcases kc with ⟨k, c⟩
    simp only [mux.matchStatics] at h
    by_cases hk : k = s
    · subst hk
      rw [if_pos rfl] at h
      obtain ⟨hne, hr⟩ := IH c ps ms h
      exact ⟨hne, c, List.mem_cons_self _ _, hr⟩
    · rw [if_neg hk] at h
      obtain ⟨hne, c2, hmem, hr⟩ := ihl ps ms h
      exact ⟨hne, c2, List.mem_cons_of_mem _ hmem, hr⟩

/-- If the regexParam children miss with a method-set candidate, some
regex child accepting the segment reaches a terminal with that method
set. -/
theorem matchRegexes_miss_sound (method s : String) (rest : List String)
    (IH : ∀ (n : mux.Node) (ps : List (String × String)) (ms : List String),
      mux.matchNode method ps n rest = .miss (some ms) →
      ms ≠ [] ∧ mux.ReachesMethods n rest ms) :
    ∀ (lst : List (String × String × (String → Bool) × mux.Node))
      (ps : List (String × String)) (ms : List String),
      mux.matchRegexes method ps lst s rest = .miss (some ms) →
      ms ≠ [] ∧ ∃ n2 e2 pred c, (n2, e2, pred, c) ∈ lst ∧ pred s = true ∧
        mux.ReachesMethods c rest ms := by
  intro lst
  induction lst with
  | nil => intro ps ms h; simp [mux.matchRegexes] at h
  | cons q more ihl =>
    intro ps ms h
    rcases q with ⟨n2, e2, pred, c⟩
    simp only [mux.matchRegexes] at h
    by_cases hp : pred s = true
    · rw [if_pos hp] at h
      rcases MOut_orElse_eq_miss_some _ _ _ h with ⟨h1, _⟩ | ⟨_, h2⟩
      · obtain ⟨hne, hr⟩ := IH c ((n2, s) :: ps) ms h1
        exact ⟨hne, n2, e2, pred, c, List.mem_cons_self _ _, hp, hr⟩
      · obtain ⟨hne, n3, e3, p3, c3, hmem, hp3, hr⟩ := ihl ps ms h2
        exact ⟨hne, n3, e3, p3, c3, List.mem_cons_of_mem _ hmem, hp3, hr⟩
    · rw [if_neg hp] at h
      obtain ⟨hne, n3, e3, p3, c3, hmem, hp3, hr⟩ := ihl ps ms h
      exact ⟨hne, n3, e3, p3, c3, List.mem_cons_of_mem _ hmem, hp3, hr⟩

/-- If the param child misses with a method-set candidate, it exists and
reaches a terminal with that method set. -/
theorem matchParamChild_miss_sound (method s : String) (rest : List String)
    (IH : ∀ (n : mux.Node) (ps : List (String × String)) (ms : List String),
      mux.matchNode method ps n rest = .miss (some ms) →
      ms ≠ [] ∧ mux.ReachesMethods n rest ms) :
    ∀ (pr : Option (String × mux.Node)) (ps : List (String × String))
      (ms : List String),
      mux.matchParamChild method ps pr s rest = .miss (some ms) →
      ms ≠ [] ∧ ∃ n2 c, pr = some (n2, c) ∧ mux.ReachesMethods c rest ms := by
  intro pr ps ms h
  rcases pr with _ | ⟨n2, c⟩
  · simp [mux.matchParamChild] at h
  · simp only [mux.matchParamChild] at h
    obtain ⟨hne, hr⟩ := IH c ((n2, s) :: ps) ms h
    exact ⟨hne, n2, c, rfl, hr⟩

/-- If the wildcard child misses with a method-set candidate, its endpoint
table is nonempty and carries exactly those methods. -/
theorem matchWildChild_miss_sound (method s : String) (rest : List String) :
    ∀ (wc : Option (List (String × Nat))) (ps : List (String × String))
      (ms : List String),
      mux.matchWildChild method ps wc s rest = .miss (some ms) →
      ms ≠ [] ∧ ∃ tbl, wc = some tbl ∧ tbl ≠ [] ∧ ms = tbl.map Prod.fst := by
  intro wc ps ms h
  rcases wc with _ | tbl
  · simp [mux.matchWildChild] at h
  · simp only [mux.matchWildChild] at h
    rcases hl : mux.lookupBy method tbl with _ | e
    · rw [hl] at h
      by_cases he : tbl.isEmpty
      · simp [he] at h
      · simp only [he, if_false, Bool.false_eq_true, if_neg] at h
        have hms : ms = tbl.map Prod.fst := by
          cases h; rfl
        have htbl : tbl ≠ [] := by
          intro hnil; rw [hnil] at he; exact he rfl
        refine ⟨?_, tbl, rfl, htbl, hms⟩
        rw [hms]
        simpa using htbl
    · rw [hl] at h
      simp at h

/-- A miss with a method-set candidate is sound: the path segments reach,
from this node, a terminal node whose nonempty endpoint table registers
exactly those methods. -/
theorem matchNode_miss_sound (method : String) :
    ∀ (segs : List String) (n : mux.Node) (ps : List (String × String))
      (ms : List String),
      mux.matchNode method ps n segs = .miss (some ms) →
      ms ≠ [] ∧ mux.ReachesMethods n segs ms := by
  intro segs
  induction segs with
  | nil =>
    intro n ps ms h
    rcases n with ⟨st, rx, pr, wc, eps⟩
    simp only [mux.matchNode] at h
    rcases hl : mux.lookupBy method eps with _ | e
    · rw [hl] at h
      by_cases he : eps.isEmpty
      · simp [he] at h
      · simp only [he, Bool.false_eq_true, if_neg] at h
        have hms : ms = eps.map Prod.fst := by cases h; rfl
        have heps : eps ≠ [] := by
          intro hnil; rw [hnil] at he; exact he rfl
        constructor
        · rw [hms]; simpa using heps
        · rw [hms]; exact mux.ReachesMethods.here st rx pr wc eps heps
    · rw [hl] at h
      simp at h
  | cons s rest ih =>
    intro n ps ms h
    rcases n with ⟨st, rx, pr, wc, eps⟩
    simp only [mux.matchNode] at h
    rcases MOut_orElse_eq_miss_some _ _ _ h with ⟨hA, _⟩ | ⟨_, hBCD⟩
    · obtain ⟨hne, c, hmem, hr⟩ := matchStatics_miss_sound method s rest ih st ps ms hA
      exact ⟨hne, mux.ReachesMethods.static st rx pr wc eps s rest ms c hmem hr⟩
    · rcases MOut_orElse_eq_miss_some _ _ _ hBCD with ⟨hB, _⟩ | ⟨_, hCD⟩
      · obtain ⟨hne, n2, e2, pred, c, hmem, hp, hr⟩ :=
          matchRegexes_miss_sound method s rest ih rx ps ms hB
        exact ⟨hne, mux.ReachesMethods.regex st rx pr wc eps s rest ms n2 e2 pred c hmem hp hr⟩
      · rcases MOut_orElse_eq_miss_some _ _ _ hCD with ⟨hC, _⟩ | ⟨_, hD⟩
        · obtain ⟨hne, n2, c, hpr, hr⟩ :=
            matchParamChild_miss_sound method s rest ih pr ps ms hC
          exact ⟨hne, mux.ReachesMethods.param st rx pr wc eps s rest ms n2 c hpr hr⟩
        · obtain ⟨hne, tbl, hwc, htbl, hms⟩ :=
            matchWildChild_miss_sound method s rest wc ps ms hD
          subst hms
          exact ⟨hne, mux.ReachesMethods.wild st rx pr wc eps s rest tbl hwc htbl⟩

/-- C2: for every trie, HTTP method and path string, matching resolves to
exactly one of the three mutually exclusive outcomes — a matched endpoint,
method-not-allowed carrying the (nonempty) method set registered at a
terminal node reached by the path, or not-found; the matcher is a total
function, so it never fails on malformed or adversarial input. -/
theorem matcher_trichotomy (root : mux.Node) (method path : String) :
    ((∃ e ps, mux.matchPath root method path = .matched e ps) ∨
     (∃ ms, mux.matchPath root method path = .methodNotAllowed ms ∧ ms ≠ [] ∧
        mux.ReachesMethods root (mux.splitPath path) ms) ∨
     mux.matchPath root method path = .notFound) ∧
    ¬ ((∃ e ps, mux.matchPath root method path = .matched e ps) ∧
       (∃ ms, mux.matchPath root method path = .methodNotAllowed ms)) ∧
    ¬ ((∃ e ps, mux.matchPath root method path = .matched e ps) ∧
       mux.matchPath root method path = .notFound) ∧
    ¬ ((∃ ms, mux.matchPath root method path = .methodNotAllowed ms) ∧
       mux.matchPath root method path = .notFound) := by
  refine ⟨?_, ?_, ?_, ?_⟩
  · rcases hm : mux.matchNode method [] root (mux.splitPath path) with ⟨e, ps⟩ | ⟨(_ | ms)⟩
    · exact Or.inl ⟨e, ps, by simp [mux.matchPath, hm]⟩
    · exact Or.inr (Or.inr (by simp [mux.matchPath, hm]))
    · refine Or.inr (Or.inl ⟨ms, by simp [mux.matchPath, hm], ?_, ?_⟩)
      · exact (matchNode_miss_sound method (mux.splitPath path) root [] ms hm).1
      · exact (matchNode_miss_sound method (mux.splitPath path) root [] ms hm).2
  · rintro ⟨⟨e, ps, h1⟩, ⟨ms, h2⟩⟩
    rw [h1] at h2
    exact absurd h2 (by simp)
  · rintro ⟨⟨e, ps, h1⟩, h2⟩
    rw [h1] at h2
    exact absurd h2 (by simp)
  · rintro ⟨⟨ms, h1⟩, h2⟩
    rw [h1] at h2
    exact absurd h2 (by simp)

/-- C2 witness: the trichotomy instantiated at a concrete trie and an
adversarial empty-segment path. -/
theorem matcher_trichotomy_witness :
    (∃ e ps, mux.matchPath mux.demoNode "GET" "/users//me" = .matched e ps) ∨
    (∃ ms, mux.matchPath mux.demoNode "GET" "/users//me" = .methodNotAllowed ms ∧
       ms ≠ [] ∧ mux.ReachesMethods mux.demoNode (mux.splitPath "/users//me") ms) ∨
    mux.matchPath mux.demoNode "GET" "/users//me" = .notFound :=
  (matcher_trichotomy mux.demoNode "GET" "/users//me").1

end Clover
